import Mathlib

/-!
Verification of the altvina busy-sync reconciliation engine.

The development shallowly embeds the reconciliation logic of the calendar
sync service: the metadata codec, the forward sync (iCloud to the Outlook
mirror, `syncEvents` / `updateEvent` in `src/lib/graph.ts`), the write-back
and deletion decisions, the derived busy-block sync and the orphan sweep of
the handler (`src/unnamed/part_000`), and the kill switch.  Remote calls are
modelled by explicit result values and failure oracles; machine dates are
modelled as integer epoch instants.
-/

namespace BusySync

/-- Truthiness of an optional string exactly as JavaScript sees the original
optional fields: `undefined` and the empty string are falsy. -/
def optTruthy : Option String → Bool
  | none => false
  | some s => s != ""

/-! ## Metadata codec

The current `lib/graph.ts` exports `parseSyncMeta`; the handler
(`src/unnamed/part_000`) imports it, but the implementation file present under
`src/lib` is an older revision without it, so the codec is modelled from the
spec (section 4.1). -/

/-- Whitespace characters tolerated inside the marker line. -/
def isWsChar (c : Char) : Bool := c = ' ' || c = '\t' || c = '\r'

/-- Split a character list at every character satisfying `p`, dropping the
delimiters; the result list is never empty (an empty input gives `[[]]`). -/
def splitOnPred (p : Char → Bool) : List Char → List (List Char)
  | [] => [[]]
  | c :: cs =>
    if p c then [] :: splitOnPred p cs
    else
      match splitOnPred p cs with
      | [] => [[c]]
      | r :: rs => (c :: r) :: rs

/-- Whitespace-tolerant tokenisation of a line: split on whitespace and drop
empty fragments. -/
def tokenize (cs : List Char) : List (List Char) :=
  (splitOnPred isWsChar cs).filter (fun t => !t.isEmpty)

/-- The characters of the fixed marker token that introduces the metadata
line. -/
def SYNC_MARKER_CHARS : List Char := ['S', 'y', 'n', 'c', 'S', 'o', 'u', 'r', 'c', 'e', ':']

/-- The fixed marker token that introduces the metadata line. -/
def SYNC_MARKER : String := String.mk SYNC_MARKER_CHARS

/-- Decoded sync metadata, both fields empty when the marker is missing or
malformed. -/
structure SyncMeta where
  syncSource : Option String
  uid : Option String
deriving DecidableEq

/-- Parse one line as a marker line: marker token, tag, uid, separated by
whitespace.  Any other shape is rejected. -/
def parseMarkerLine (line : List Char) : Option (String × String) :=
  match tokenize line with
  | [m, t, u] => if m = SYNC_MARKER_CHARS then some (String.mk t, String.mk u) else none
  | _ => none

/-- Modelled from the spec: `parseSyncMeta` (metadata codec, current
`lib/graph.ts`) is not among the source files; per spec section 4.1, decoding
is lenient — the trailing marker line yields the `(sourceTag, uid)` pair and a
missing or malformed marker yields both fields empty, never an error. -/
def parseSyncMeta (body : Option String) : SyncMeta :=
  match body with
  | none => ⟨none, none⟩
  | some b =>
    match ((splitOnPred (fun c => c = '\n') b.data).filterMap parseMarkerLine).getLast? with
    | some (t, u) => ⟨some t, some u⟩
    | none => ⟨none, none⟩

/-- Modelled from the spec: the encoder of the metadata codec appends a single
trailing marker line — the fixed marker token followed by tag and uid — to the
event body. -/
def encodeSyncMeta (body tag uid : String) : String :=
  body ++ "\n" ++ SYNC_MARKER ++ " " ++ tag ++ " " ++ uid

/-- A string usable as a tag or uid in the marker line: non-empty and free of
the marker delimiters (whitespace and newline). -/
def validToken (s : String) : Bool :=
  !s.data.isEmpty && s.data.all (fun c => !isWsChar c && c != '\n')

theorem splitOnPred_ne_nil (p : Char → Bool) : ∀ cs, splitOnPred p cs ≠ []
  | [] => by simp [splitOnPred]
  | c :: cs => by
    unfold splitOnPred
    by_cases hp : p c
    · simp [hp]
    · simp only [hp]
      cases h : splitOnPred p cs with
      | nil => simp
      | cons r rs => simp

theorem splitOnPred_append (p : Char → Bool) (d : Char) (hd : p d = true) :
    ∀ xs ys, splitOnPred p (xs ++ d :: ys) = splitOnPred p xs ++ splitOnPred p ys
  | [], ys => by simp [splitOnPred, hd]
  | c :: xs, ys => by
    have ih := splitOnPred_append p d hd xs ys
    by_cases hp : p c
    · simp [splitOnPred, hp, ih]
    · cases h : splitOnPred p xs with
      | nil => exact absurd h (splitOnPred_ne_nil p xs)
      | cons r rs => simp [splitOnPred, hp, ih, h]

theorem splitOnPred_no_delim (p : Char → Bool) :
    ∀ cs, (∀ c ∈ cs, p c = false) → splitOnPred p cs = [cs]
  | [], _ => rfl
  | c :: cs, h => by
    have hc : p c = false := h c (List.mem_cons_self c cs)
    have ih := splitOnPred_no_delim p cs (fun x hx => h x (List.mem_cons_of_mem c hx))
    simp [splitOnPred, hc, ih]

theorem tokenize_three (m t u : List Char)
    (hm : m.isEmpty = false ∧ ∀ c ∈ m, isWsChar c = false)
    (ht : t.isEmpty = false ∧ ∀ c ∈ t, isWsChar c = false)
    (hu : u.isEmpty = false ∧ ∀ c ∈ u, isWsChar c = false) :
    tokenize (m ++ ' ' :: (t ++ ' ' :: u)) = [m, t, u] := by
  unfold tokenize
  rw [splitOnPred_append isWsChar ' ' (by decide) m (t ++ ' ' :: u),
    splitOnPred_append isWsChar ' ' (by decide) t u,
    splitOnPred_no_delim isWsChar m hm.2, splitOnPred_no_delim isWsChar t ht.2,
    splitOnPred_no_delim isWsChar u hu.2]
  simp [List.filter, hm.1, ht.1, hu.1]

theorem data_append (s t : String) : (s ++ t).data = s.data ++ t.data := rfl

theorem getLast?_append_singleton {α : Type} (l : List α) (x : α) :
    (l ++ [x]).getLast? = some x := by
  induction l with
  | nil => rfl
  | cons a l ih =>
    rw [List.cons_append, List.getLast?_cons, ih]
    rfl

/-- C6: for every non-empty tag and uid containing no marker delimiter,
decoding the body produced by encoding `(tag, uid)` returns exactly that tag
and uid: `parseSyncMeta (encodeSyncMeta body tag uid) = {tag, uid}`. -/
theorem decode_encode_roundtrip (body tag uid : String)
    (htag : validToken tag = true) (huid : validToken uid = true) :
    parseSyncMeta (some (encodeSyncMeta body tag uid)) = ⟨some tag, some uid⟩ := by
  have hsplit : ∀ (s : String), validToken s = true →
      s.data.isEmpty = false ∧ (∀ c ∈ s.data, isWsChar c = false) ∧
        (∀ c ∈ s.data, c ≠ '\n') := by
    intro s hs
    simp only [validToken, Bool.and_eq_true, List.all_eq_true, Bool.not_eq_true',
      bne_iff_ne] at hs
    exact ⟨hs.1, fun c hc => (hs.2 c hc).1, fun c hc => (hs.2 c hc).2⟩
  obtain ⟨htag1, htag2, htag3⟩ := hsplit tag htag
  obtain ⟨huid1, huid2, huid3⟩ := hsplit uid huid
  have hline : parseMarkerLine (SYNC_MARKER_CHARS ++ ' ' :: (tag.data ++ ' ' :: uid.data)) =
      some (tag, uid) := by
    unfold parseMarkerLine
    rw [tokenize_three SYNC_MARKER_CHARS tag.data uid.data
      ⟨by decide, by decide⟩ ⟨htag1, htag2⟩ ⟨huid1, huid2⟩]
    simp only [if_pos rfl]
    cases tag
    cases uid
    rfl
  have hdata : (encodeSyncMeta body tag uid).data =
      body.data ++ '\n' :: (SYNC_MARKER_CHARS ++ ' ' :: (tag.data ++ ' ' :: uid.data)) := by
    unfold encodeSyncMeta SYNC_MARKER
    simp [data_append]
  have hmark_nonl : ∀ c ∈ SYNC_MARKER_CHARS, ¬ c = '\n' := by decide
  have hnonl : ∀ c ∈ SYNC_MARKER_CHARS ++ ' ' :: (tag.data ++ ' ' :: uid.data),
      (decide (c = '\n')) = false := by
    intro c hc
    rcases List.mem_append.mp hc with h | h
    · simpa using hmark_nonl c h
    · rcases List.mem_cons.mp h with h | h
      · subst h; decide
      · rcases List.mem_append.mp h with h | h
        · simpa using htag3 c h
        · rcases List.mem_cons.mp h with h | h
          · subst h; decide
          · simpa using huid3 c h
  simp only [parseSyncMeta]
  rw [hdata, splitOnPred_append (fun c => decide (c = '\n')) '\n' (by decide),
    splitOnPred_no_delim (fun c => decide (c = '\n')) _ hnonl]
  rw [List.filterMap_append]
  have hsingle : List.filterMap parseMarkerLine
      [SYNC_MARKER_CHARS ++ ' ' :: (tag.data ++ ' ' :: uid.data)] = [(tag, uid)] := by
    simp [hline]
  rw [hsingle, getLast?_append_singleton]

theorem decode_encode_roundtrip_witness :
    validToken "CAL1" = true ∧ validToken "abc1" = true ∧
      parseSyncMeta (some (encodeSyncMeta "Dentist appointment" "CAL1" "abc1")) =
        ⟨some "CAL1", some "abc1"⟩ :=
  ⟨by decide, by decide,
    decode_encode_roundtrip "Dentist appointment" "CAL1" "abc1" (by decide) (by decide)⟩

/-! ## Data model

Events are embedded with absolute instants (`Int`, epoch milliseconds) for
`start`/`end`; the `end` field is called `stop` because `end` is a Lean
keyword. -/

/-- `NormalizedEvent` (src/lib/types.ts). -/
structure NormalizedEvent where
  uid : String
  title : String
  description : String
  start : Int
  stop : Int
  location : Option String
  calendarName : String
  isAllDay : Bool
  eventUrl : Option String
deriving DecidableEq

/-- `GraphEventResponse` (src/lib/types.ts): an Outlook mirror event as
returned by `listEventsInWindow`; `body` is the body content when fetched
with `includeBody`. -/
structure GraphEventResponse where
  id : String
  subject : String
  iCalUId : Option String
  showAs : Option String
  isAllDay : Bool
  start : Int
  stop : Int
  body : Option String
deriving DecidableEq

/-! ## iCloud delete by URL (`src/lib/icloud.ts`) -/

/-- HTTP success of a fetch response (`response.ok`). -/
def responseOk (status : Nat) : Bool := 200 ≤ status && status < 300

/-- Error behaviour of `deleteIcloudEventByUrl` (src/lib/icloud.ts 670-687),
modelled on the HTTP status of the DELETE response: the function throws unless
the response is ok or the status is 404. -/
def deleteIcloudEventByUrl (status : Nat) : Except String Unit :=
  if !responseOk status && status != 404 then
    Except.error "Failed to delete iCloud event"
  else
    Except.ok ()

/-- C10: deleting a source event by URL succeeds when the remote returns 404
(event already gone), and throws only for non-ok statuses other than 404. -/
theorem delete_404_is_ok :
    deleteIcloudEventByUrl 404 = Except.ok () ∧
      ∀ status : Nat, deleteIcloudEventByUrl status = Except.ok () ↔
        (responseOk status = true ∨ status = 404) := by
  refine ⟨rfl, fun status => ?_⟩
  unfold deleteIcloudEventByUrl
  by_cases h : responseOk status = true
  · simp [h]
  · by_cases h4 : status = 404
    · simp [h, h4]
    · simp [h, h4]

theorem delete_404_is_ok_witness :
    deleteIcloudEventByUrl 404 = Except.ok () ∧
      deleteIcloudEventByUrl 500 ≠ Except.ok () := by
  refine ⟨delete_404_is_ok.1, fun h => ?_⟩
  rcases (delete_404_is_ok.2 500).mp h with h1 | h1
  · exact absurd h1 (by decide)
  · exact absurd h1 (by decide)

/-! ## Forward sync as implemented (`src/lib/graph.ts` 541-814)

The remote PATCH/POST calls are modelled by the payloads the client builds;
per-item remote failures are abstracted by the oracles `failCreate` and
`failUpdate`, keyed by the event uid. -/

/-- Payload fields the Graph client sends when creating or updating a mirror
event. -/
structure GraphEventPayload where
  subject : String
  bodyContent : String
  start : Int
  stop : Int
  showAs : String
  sensitivity : String
  location : Option String
deriving DecidableEq

/-- Body text written for a synced event: the description plus a trailing
`Synced UID:` line (src/lib/graph.ts). -/
def syncedBody (event : NormalizedEvent) : String :=
  event.description ++ "\n\nSynced UID: " ++ event.uid

/-- The PATCH payload built by `updateEvent` (src/lib/graph.ts 652-736):
title/times from the source event; `showAs` preserved as `free` exactly when
`preserveShowAs` is `free`, otherwise forced to `busy`. -/
def updateEventPayload (event : NormalizedEvent) (preserveShowAs : Option String) :
    GraphEventPayload :=
  { subject := event.title
    bodyContent := syncedBody event
    start := event.start
    stop := event.stop
    showAs := if preserveShowAs = some "free" then "free" else "busy"
    sensitivity := "private"
    location := if optTruthy event.location then event.location else none }

/-- The POST payload built by `createEvent` (src/lib/graph.ts 541-626):
`showAs` is always `busy` on creation. -/
def createEventPayload (event : NormalizedEvent) : GraphEventPayload :=
  { subject := event.title
    bodyContent := syncedBody event
    start := event.start
    stop := event.stop
    showAs := "busy"
    sensitivity := "private"
    location := if optTruthy event.location then event.location else none }

/-- Per-item diagnostics recorded by `syncEvents`: the duplicate-uid warning
and the caught create/update failures (src/lib/graph.ts 768, 792, 804). -/
inductive SyncItemError
  | dupUid (uid : String)
  | updateFailed (uid : String)
  | createFailed (uid : String)
deriving DecidableEq

/-- Whether a recorded item diagnostic is the duplicate-uid warning. -/
def SyncItemError.isDup : SyncItemError → Bool
  | .dupUid _ => true
  | _ => false

/-- A remote mutation issued by `syncEvents`, tagged with the source event uid
it was issued for. -/
inductive SyncOp
  | create (uid : String) (p : GraphEventPayload)
  | update (uid : String) (targetId : String) (p : GraphEventPayload)
deriving DecidableEq

/-- Uid of the source event a sync operation was issued for. -/
def SyncOp.uidOf : SyncOp → String
  | .create u _ => u
  | .update u _ _ => u

/-- Result of `syncEvents`, with the issued operations and the per-item
diagnostics kept as a trace. -/
structure SyncResult where
  created : Nat
  updated : Nat
  skipped : Nat
  ops : List SyncOp
  errors : List SyncItemError
deriving DecidableEq

/-- Index of the existing mirror events by `iCalUId`
(src/lib/graph.ts 757-763): a `Map` filled by `forEach`/`set`, so the last
event with a given id wins; events with a falsy `iCalUId` are not indexed. -/
def findByUid (existing : List GraphEventResponse) (uid : String) :
    Option GraphEventResponse :=
  if uid = "" then none
  else (existing.filter (fun e => e.iCalUId == some uid)).getLast?

/-- Loop of `syncEvents` (src/lib/graph.ts 743-814): reject duplicate uids
with a skip, update an indexed match (preserving `showAs` when it is `free`),
create otherwise; a failed create/update is recorded and the loop continues. -/
def syncEventsGo (failCreate failUpdate : String → Bool)
    (existing : List GraphEventResponse) :
    List NormalizedEvent → List String → SyncResult
  | [], _ => ⟨0, 0, 0, [], []⟩
  | ev :: rest, processedUids =>
    if processedUids.contains ev.uid then
      let r := syncEventsGo failCreate failUpdate existing rest processedUids
      { r with skipped := r.skipped + 1, errors := .dupUid ev.uid :: r.errors }
    else
      let r := syncEventsGo failCreate failUpdate existing rest (ev.uid :: processedUids)
      match findByUid existing ev.uid with
      | some existingEvent =>
        if failUpdate ev.uid then
          { r with errors := .updateFailed ev.uid :: r.errors }
        else
          let preserveShowAs : Option String :=
            if existingEvent.showAs = some "free" then some "free" else none
          { r with
            updated := r.updated + 1
            ops := .update ev.uid existingEvent.id (updateEventPayload ev preserveShowAs)
              :: r.ops }
      | none =>
        if failCreate ev.uid then
          { r with errors := .createFailed ev.uid :: r.errors }
        else
          { r with
            created := r.created + 1
            ops := .create ev.uid (createEventPayload ev) :: r.ops }

/-- `syncEvents` (src/lib/graph.ts 743-814), as a function of the source
batch and the fetched existing mirror events. -/
def syncEvents (failCreate failUpdate : String → Bool)
    (events : List NormalizedEvent) (existing : List GraphEventResponse) : SyncResult :=
  syncEventsGo failCreate failUpdate existing events []

theorem syncEventsGo_update_mem (failCreate failUpdate : String → Bool)
    (existing : List GraphEventResponse) (events : List NormalizedEvent) :
    ∀ (processed : List String) (u tid : String) (p : GraphEventPayload),
      SyncOp.update u tid p ∈
        (syncEventsGo failCreate failUpdate existing events processed).ops →
      ∃ ev ∈ events, ev.uid = u ∧ ∃ ex, findByUid existing ev.uid = some ex ∧ ex.id = tid ∧
        p = updateEventPayload ev (if ex.showAs = some "free" then some "free" else none) := by
  induction events with
  | nil =>
    intro processed u tid p h
    simp [syncEventsGo] at h
  | cons ev rest ih =>
    intro processed u tid p h
    simp only [syncEventsGo] at h
    by_cases hdup : processed.contains ev.uid = true
    · rw [if_pos hdup] at h
      obtain ⟨ev', hmem, h2⟩ := ih processed u tid p h
      exact ⟨ev', List.mem_cons_of_mem _ hmem, h2⟩
    · rw [if_neg hdup] at h
      split at h
      · rename_i existingEvent hfind
        by_cases hfail : failUpdate ev.uid = true
        · rw [if_pos hfail] at h
          obtain ⟨ev', hmem, h2⟩ := ih (ev.uid :: processed) u tid p h
          exact ⟨ev', List.mem_cons_of_mem _ hmem, h2⟩
        · rw [if_neg hfail] at h
          rcases List.mem_cons.mp h with heq | hmem
          · injection heq with h1 h2 h3
            exact ⟨ev, List.mem_cons_self ev rest, h1.symm,
              existingEvent, hfind, h2.symm, h3⟩
          · obtain ⟨ev', hmem', h2⟩ := ih (ev.uid :: processed) u tid p hmem
            exact ⟨ev', List.mem_cons_of_mem _ hmem', h2⟩
      · rename_i hfind
        by_cases hfail : failCreate ev.uid = true
        · rw [if_pos hfail] at h
          obtain ⟨ev', hmem, h2⟩ := ih (ev.uid :: processed) u tid p h
          exact ⟨ev', List.mem_cons_of_mem _ hmem, h2⟩
        · rw [if_neg hfail] at h
          rcases List.mem_cons.mp h with heq | hmem
          · exact SyncOp.noConfusion heq
          · obtain ⟨ev', hmem', h2⟩ := ih (ev.uid :: processed) u tid p hmem
            exact ⟨ev', List.mem_cons_of_mem _ hmem', h2⟩

/-- C2: every update issued by Forward Sync targets the mirror event the
source event matched, carries the source title, and preserves availability
`free` exactly when the existing mirror event is currently `free`, forcing
`busy` otherwise. -/
theorem forward_update_preserves_free (failCreate failUpdate : String → Bool)
    (events : List NormalizedEvent) (existing : List GraphEventResponse)
    (u tid : String) (p : GraphEventPayload)
    (hmem : SyncOp.update u tid p ∈ (syncEvents failCreate failUpdate events existing).ops) :
    ∃ ev ∈ events, ev.uid = u ∧ ∃ ex, findByUid existing ev.uid = some ex ∧ ex.id = tid ∧
      p = updateEventPayload ev (if ex.showAs = some "free" then some "free" else none) ∧
      p.subject = ev.title ∧ (p.showAs = "free" ↔ ex.showAs = some "free") := by
  obtain ⟨ev, hm, hu, ex, hfind, hid, hp⟩ :=
    syncEventsGo_update_mem failCreate failUpdate existing events [] u tid p hmem
  refine ⟨ev, hm, hu, ex, hfind, hid, hp, ?_, ?_⟩
  · rw [hp]; rfl
  · rw [hp]
    by_cases hfree : ex.showAs = some "free"
    · simp [updateEventPayload, hfree]
    · simp [updateEventPayload, hfree]

/-- A source event matching Scenario B: the source title changed while the
mirror copy was manually marked `free`. -/
def sampleSourceEvent : NormalizedEvent :=
  ⟨"xyz9", "Call (rescheduled)", "", 0, 3600000, none, "Jay - Personal", false, none⟩

/-- The matching mirror event, manually marked `free`. -/
def sampleMirrorFree : GraphEventResponse :=
  ⟨"evt1", "Call", some "xyz9", some "free", false, 0, 3600000, some "body"⟩

theorem forward_update_preserves_free_witness :
    ∃ ev ∈ [sampleSourceEvent], ev.uid = "xyz9" ∧
      ∃ ex, findByUid [sampleMirrorFree] ev.uid = some ex ∧ ex.id = "evt1" ∧
        updateEventPayload sampleSourceEvent (some "free") =
          updateEventPayload ev (if ex.showAs = some "free" then some "free" else none) ∧
        (updateEventPayload sampleSourceEvent (some "free")).subject = ev.title ∧
        ((updateEventPayload sampleSourceEvent (some "free")).showAs = "free" ↔
          ex.showAs = some "free") :=
  forward_update_preserves_free (fun _ => false) (fun _ => false)
    [sampleSourceEvent] [sampleMirrorFree] "xyz9" "evt1"
    (updateEventPayload sampleSourceEvent (some "free")) (by decide)

theorem syncEventsGo_ops_count_zero (failCreate failUpdate : String → Bool)
    (existing : List GraphEventResponse) (u : String) (events : List NormalizedEvent) :
    ∀ processed : List String, processed.contains u = true →
      ((syncEventsGo failCreate failUpdate existing events processed).ops.filter
        (fun op => op.uidOf == u)).length = 0 := by
  induction events with
  | nil =>
    intro processed hp
    simp [syncEventsGo]
  | cons ev rest ih =>
    intro processed hp
    simp only [syncEventsGo]
    by_cases hdup : processed.contains ev.uid = true
    · rw [if_pos hdup]
      exact ih processed hp
    · rw [if_neg hdup]
      have hne : (ev.uid == u) = false := by
        by_cases h : ev.uid = u
        · rw [h] at hdup
          exact absurd hp hdup
        · simp [h]
      have hp2 : (ev.uid :: processed).contains u = true := by
        rw [List.contains_cons, hp, Bool.or_true]
      split
      · by_cases hfail : failUpdate ev.uid = true
        · rw [if_pos hfail]
          exact ih (ev.uid :: processed) hp2
        · rw [if_neg hfail]
          simp only [List.filter_cons, SyncOp.uidOf, hne]
          exact ih (ev.uid :: processed) hp2
      · by_cases hfail : failCreate ev.uid = true
        · rw [if_pos hfail]
          exact ih (ev.uid :: processed) hp2
        · rw [if_neg hfail]
          simp only [List.filter_cons, SyncOp.uidOf, hne]
          exact ih (ev.uid :: processed) hp2

theorem length_filter_cons_le_one {A : Type} (p : A → Bool) (a : A) (l : List A)
    (hl : (l.filter p).length = 0) : ((a :: l).filter p).length ≤ 1 := by
  rw [List.filter_cons]
  split
  · simp [hl]
  · simp [hl]

theorem syncEventsGo_ops_count_le_one (failCreate failUpdate : String → Bool)
    (existing : List GraphEventResponse) (u : String) (events : List NormalizedEvent) :
    ∀ processed : List String,
      ((syncEventsGo failCreate failUpdate existing events processed).ops.filter
        (fun op => op.uidOf == u)).length ≤ 1 := by
  induction events with
  | nil =>
    intro processed
    simp [syncEventsGo]
  | cons ev rest ih =>
    intro processed
    simp only [syncEventsGo]
    by_cases hdup : processed.contains ev.uid = true
    · rw [if_pos hdup]
      exact ih processed
    · rw [if_neg hdup]
      by_cases heq : ev.uid = u
      · have hcontains : (ev.uid :: processed).contains u = true := by
          rw [List.contains_cons]
          simp [heq]
        have hzero := syncEventsGo_ops_count_zero failCreate failUpdate existing u rest
          (ev.uid :: processed) hcontains
        split
        · by_cases hfail : failUpdate ev.uid = true
          · rw [if_pos hfail]
            exact le_trans (le_of_eq hzero) (by omega)
          · rw [if_neg hfail]
            exact length_filter_cons_le_one _ _ _ hzero
        · by_cases hfail : failCreate ev.uid = true
          · rw [if_pos hfail]
            exact le_trans (le_of_eq hzero) (by omega)
          · rw [if_neg hfail]
            exact length_filter_cons_le_one _ _ _ hzero
      · have heq2 : (ev.uid == u) = false := by simp [heq]
        split
        · by_cases hfail : failUpdate ev.uid = true
          · rw [if_pos hfail]
            exact ih (ev.uid :: processed)
          · rw [if_neg hfail]
            simp only [List.filter_cons, SyncOp.uidOf, heq2]
            exact ih (ev.uid :: processed)
        · by_cases hfail : failCreate ev.uid = true
          · rw [if_pos hfail]
            exact ih (ev.uid :: processed)
          · rw [if_neg hfail]
            simp only [List.filter_cons, SyncOp.uidOf, heq2]
            exact ih (ev.uid :: processed)

theorem syncEventsGo_dup_count_mem (failCreate failUpdate : String → Bool)
    (existing : List GraphEventResponse) (u : String) (events : List NormalizedEvent) :
    ∀ processed : List String, processed.contains u = true →
      (syncEventsGo failCreate failUpdate existing events processed).errors.countP
          (fun e => e == SyncItemError.dupUid u) =
        events.countP (fun e => e.uid == u) := by
  induction events with
  | nil =>
    intro processed _
    simp [syncEventsGo]
  | cons ev rest ih =>
    intro processed hp
    simp only [syncEventsGo]
    by_cases hdup : processed.contains ev.uid = true
    · rw [if_pos hdup]
      by_cases heq : ev.uid = u
      · subst heq
        simp [List.countP_cons, ih processed hp]
      · have h1 : (SyncItemError.dupUid ev.uid == SyncItemError.dupUid u) = false := by
          simp [heq]
        have h2 : (ev.uid == u) = false := by simp [heq]
        simp [List.countP_cons, h1, h2, ih processed hp]
    · rw [if_neg hdup]
      have heq : ev.uid ≠ u := fun h => hdup (by rw [h]; exact hp)
      have h2 : (ev.uid == u) = false := by simp [heq]
      have hp2 : (ev.uid :: processed).contains u = true := by
        rw [List.contains_cons, hp, Bool.or_true]
      split
      · by_cases hfail : failUpdate ev.uid = true
        · rw [if_pos hfail]
          have h3 : (SyncItemError.updateFailed ev.uid == SyncItemError.dupUid u) = false := by
            simp
          simp [List.countP_cons, h3, h2, ih (ev.uid :: processed) hp2]
        · rw [if_neg hfail]
          simp [List.countP_cons, h2, ih (ev.uid :: processed) hp2]
      · by_cases hfail : failCreate ev.uid = true
        · rw [if_pos hfail]
          have h3 : (SyncItemError.createFailed ev.uid == SyncItemError.dupUid u) = false := by
            simp
          simp [List.countP_cons, h3, h2, ih (ev.uid :: processed) hp2]
        · rw [if_neg hfail]
          simp [List.countP_cons, h2, ih (ev.uid :: processed) hp2]

theorem syncEventsGo_dup_count_first (failCreate failUpdate : String → Bool)
    (existing : List GraphEventResponse) (u : String) (events : List NormalizedEvent) :
    ∀ processed : List String, processed.contains u = false →
      (syncEventsGo failCreate failUpdate existing events processed).errors.countP
          (fun e => e == SyncItemError.dupUid u) =
        events.countP (fun e => e.uid == u) - 1 := by
  induction events with
  | nil =>
    intro processed _
    simp [syncEventsGo]
  | cons ev rest ih =>
    intro processed hp
    simp only [syncEventsGo]
    by_cases hdup : processed.contains ev.uid = true
    · rw [if_pos hdup]
      have heq : ev.uid ≠ u := by
        intro h
        rw [h, hp] at hdup
        exact absurd hdup (by decide)
      have h1 : (SyncItemError.dupUid ev.uid == SyncItemError.dupUid u) = false := by
        simp [heq]
      have h2 : (ev.uid == u) = false := by simp [heq]
      simp [List.countP_cons, h1, h2, ih processed hp]
    · rw [if_neg hdup]
      by_cases heq : ev.uid = u
      · have hp2 : (ev.uid :: processed).contains u = true := by
          rw [List.contains_cons]
          simp [heq]
        have hmem := syncEventsGo_dup_count_mem failCreate failUpdate existing u rest
          (ev.uid :: processed) hp2
        rw [heq] at hmem
        split
        · by_cases hfail : failUpdate ev.uid = true
          · rw [if_pos hfail]
            have h3 : (SyncItemError.updateFailed ev.uid == SyncItemError.dupUid u) = false := by
              simp
            simp [List.countP_cons, h3, heq, hmem]
          · rw [if_neg hfail]
            simp [List.countP_cons, heq, hmem]
        · by_cases hfail : failCreate ev.uid = true
          · rw [if_pos hfail]
            have h3 : (SyncItemError.createFailed ev.uid == SyncItemError.dupUid u) = false := by
              simp
            simp [List.countP_cons, h3, heq, hmem]
          · rw [if_neg hfail]
            simp [List.countP_cons, heq, hmem]
      · have h2 : (ev.uid == u) = false := by simp [heq]
        have hp2 : (ev.uid :: processed).contains u = false := by
          rw [List.contains_cons]
          have hfalse : (u == ev.uid) = false := by
            simp only [beq_eq_false_iff_ne, ne_eq]
            exact fun h => heq h.symm
          rw [hfalse, Bool.false_or]
          exact hp
        split
        · by_cases hfail : failUpdate ev.uid = true
          · rw [if_pos hfail]
            have h3 : (SyncItemError.updateFailed ev.uid == SyncItemError.dupUid u) = false := by
              simp
            simp [List.countP_cons, h3, h2, ih (ev.uid :: processed) hp2]
          · rw [if_neg hfail]
            simp [List.countP_cons, h2, ih (ev.uid :: processed) hp2]
        · by_cases hfail : failCreate ev.uid = true
          · rw [if_pos hfail]
            have h3 : (SyncItemError.createFailed ev.uid == SyncItemError.dupUid u) = false := by
              simp
            simp [List.countP_cons, h3, h2, ih (ev.uid :: processed) hp2]
          · rw [if_neg hfail]
            simp [List.countP_cons, h2, ih (ev.uid :: processed) hp2]

theorem syncEventsGo_skipped_eq_dup (failCreate failUpdate : String → Bool)
    (existing : List GraphEventResponse) (events : List NormalizedEvent) :
    ∀ processed : List String,
      (syncEventsGo failCreate failUpdate existing events processed).skipped =
        (syncEventsGo failCreate failUpdate existing events processed).errors.countP
          SyncItemError.isDup := by
  induction events with
  | nil =>
    intro processed
    simp [syncEventsGo]
  | cons ev rest ih =>
    intro processed
    simp only [syncEventsGo]
    by_cases hdup : processed.contains ev.uid = true
    · rw [if_pos hdup]
      simp [List.countP_cons, SyncItemError.isDup, ih processed]
    · rw [if_neg hdup]
      split
      · by_cases hfail : failUpdate ev.uid = true
        · rw [if_pos hfail]
          simp [List.countP_cons, SyncItemError.isDup, ih (ev.uid :: processed)]
        · rw [if_neg hfail]
          exact ih (ev.uid :: processed)
      · by_cases hfail : failCreate ev.uid = true
        · rw [if_pos hfail]
          simp [List.countP_cons, SyncItemError.isDup, ih (ev.uid :: processed)]
        · rw [if_neg hfail]
          exact ih (ev.uid :: processed)

/-- C8: in a Forward Sync batch, at most one create/update is ever issued per
uid; every occurrence of a uid after the first is recorded as a duplicate
diagnostic (their number is the occurrence count minus one); and `skipped`
counts exactly those duplicate rejections. -/
theorem duplicate_uids_rejected (failCreate failUpdate : String → Bool)
    (events : List NormalizedEvent) (existing : List GraphEventResponse) (u : String) :
    ((syncEvents failCreate failUpdate events existing).ops.filter
        (fun op => op.uidOf == u)).length ≤ 1 ∧
      (syncEvents failCreate failUpdate events existing).errors.countP
          (fun e => e == SyncItemError.dupUid u) =
        events.countP (fun e => e.uid == u) - 1 ∧
      (syncEvents failCreate failUpdate events existing).skipped =
        (syncEvents failCreate failUpdate events existing).errors.countP
          SyncItemError.isDup := by
  refine ⟨syncEventsGo_ops_count_le_one failCreate failUpdate existing u events [], ?_,
    syncEventsGo_skipped_eq_dup failCreate failUpdate existing events []⟩
  exact syncEventsGo_dup_count_first failCreate failUpdate existing u events [] rfl

/-- Whether a recorded diagnostic is a caught per-item remote failure. -/
def SyncItemError.isFailure : SyncItemError → Bool
  | .dupUid _ => false
  | .updateFailed _ => true
  | .createFailed _ => true

theorem syncEventsGo_budget (failCreate failUpdate : String → Bool)
    (existing : List GraphEventResponse) (events : List NormalizedEvent) :
    ∀ processed : List String,
      (syncEventsGo failCreate failUpdate existing events processed).created +
        (syncEventsGo failCreate failUpdate existing events processed).updated +
        (syncEventsGo failCreate failUpdate existing events processed).skipped +
        (syncEventsGo failCreate failUpdate existing events processed).errors.countP
          SyncItemError.isFailure = events.length := by
  induction events with
  | nil =>
    intro processed
    simp [syncEventsGo]
  | cons ev rest ih =>
    intro processed
    simp only [syncEventsGo]
    by_cases hdup : processed.contains ev.uid = true
    · rw [if_pos hdup]
      have h := ih processed
      simp only [List.countP_cons, SyncItemError.isFailure, List.length_cons, if_neg,
        Bool.false_eq_true, if_false]
      simp only [List.countP_cons, SyncItemError.isFailure] at h
      omega
    · rw [if_neg hdup]
      split
      · by_cases hfail : failUpdate ev.uid = true
        · rw [if_pos hfail]
          have h := ih (ev.uid :: processed)
          simp only [List.countP_cons, SyncItemError.isFailure, List.length_cons]
          simp
          omega
        · rw [if_neg hfail]
          have h := ih (ev.uid :: processed)
          simp only [List.length_cons]
          omega
      · by_cases hfail : failCreate ev.uid = true
        · rw [if_pos hfail]
          have h := ih (ev.uid :: processed)
          simp only [List.countP_cons, SyncItemError.isFailure, List.length_cons]
          simp
          omega
        · rw [if_neg hfail]
          have h := ih (ev.uid :: processed)
          simp only [List.length_cons]
          omega

/-! ## Orphan sweep (`src/unnamed/part_000` 527-585) -/

/-- Filter predicate of `orphanedEvents` (src/unnamed/part_000 541-558): an
Outlook event is an orphan-delete candidate when it was not created this run,
its metadata decodes to a tag and uid, the known-uid set for its tag is
non-empty (for CAL1: or some CAL1 uid was restored this run), and its uid is
absent from the relevant uid sets. -/
def orphanPredicate (createdEventIds cal1Uids cal2Uids cal3Uids restoredCal1Uids : List String)
    (e : GraphEventResponse) : Bool :=
  if createdEventIds.contains e.id then false
  else
    match (parseSyncMeta e.body).syncSource, (parseSyncMeta e.body).uid with
    | some src, some uidv =>
      if src = "" ∨ uidv = "" then false
      else if src = "CAL1" then
        if cal1Uids.isEmpty && restoredCal1Uids.isEmpty then false
        else !cal1Uids.contains uidv && !restoredCal1Uids.contains uidv
      else if src = "CAL2" then
        if cal2Uids.isEmpty then false
        else !cal2Uids.contains uidv
      else if src = "CAL3" then
        if cal3Uids.isEmpty then false
        else !cal3Uids.contains uidv
      else false
    | _, _ => false

/-- `orphanedEvents` (src/unnamed/part_000 541-558). -/
def orphanedEvents (createdEventIds cal1Uids cal2Uids cal3Uids restoredCal1Uids : List String)
    (existingEventsInWindow : List GraphEventResponse) : List GraphEventResponse :=
  existingEventsInWindow.filter
    (orphanPredicate createdEventIds cal1Uids cal2Uids cal3Uids restoredCal1Uids)

/-- Orphan sweep delete loop (src/unnamed/part_000 560-585): a DELETE is
issued for each candidate only; `deleteOk` abstracts the remote response. -/
def orphanSweepDeletedIds (deleteOk : String → Bool)
    (orphans : List GraphEventResponse) : List String :=
  (orphans.filter (fun e => deleteOk e.id)).map (fun e => e.id)

/-- C1: with an empty known CAL1 uid set and no CAL1 uid restored this run, no
CAL1-tagged mirror event is an orphan-delete candidate (so none is deleted); a
CAL1-tagged candidate requires its uid to be absent from both the known and
the restored CAL1 uid sets; and deletions are only ever issued for
candidates. -/
theorem orphan_sweep_cal1_safety (deleteOk : String → Bool)
    (createdEventIds cal1Uids cal2Uids cal3Uids restoredCal1Uids : List String)
    (evs : List GraphEventResponse) :
    (cal1Uids = [] → restoredCal1Uids = [] →
      ∀ e ∈ evs, (parseSyncMeta e.body).syncSource = some "CAL1" →
        e ∉ orphanedEvents createdEventIds cal1Uids cal2Uids cal3Uids restoredCal1Uids evs) ∧
    (∀ e ∈ orphanedEvents createdEventIds cal1Uids cal2Uids cal3Uids restoredCal1Uids evs,
      ∀ uidv, (parseSyncMeta e.body).syncSource = some "CAL1" →
        (parseSyncMeta e.body).uid = some uidv →
        cal1Uids.contains uidv = false ∧ restoredCal1Uids.contains uidv = false) ∧
    (∀ i ∈ orphanSweepDeletedIds deleteOk
        (orphanedEvents createdEventIds cal1Uids cal2Uids cal3Uids restoredCal1Uids evs),
      ∃ e ∈ orphanedEvents createdEventIds cal1Uids cal2Uids cal3Uids restoredCal1Uids evs,
        e.id = i) := by
  refine ⟨?_, ?_, ?_⟩
  · intro h1 h2 e _ hsrc hmem
    subst h1
    subst h2
    have hpred := (List.mem_filter.mp hmem).2
    cases hu : (parseSyncMeta e.body).uid with
    | none => simp [orphanPredicate, hsrc, hu] at hpred
    | some uidv => simp [orphanPredicate, hsrc, hu] at hpred
  · intro e hmem uidv hsrc huid
    have hpred := (List.mem_filter.mp hmem).2
    simp only [orphanPredicate, hsrc, huid] at hpred
    by_cases hc : createdEventIds.contains e.id = true
    · rw [if_pos hc] at hpred
      exact absurd hpred (by decide)
    · rw [if_neg hc] at hpred
      by_cases hu0 : ("CAL1" : String) = "" ∨ uidv = ""
      · rw [if_pos hu0] at hpred
        exact absurd hpred (by decide)
      · rw [if_neg hu0] at hpred
        simp only [if_true] at hpred
        by_cases he : (cal1Uids.isEmpty && restoredCal1Uids.isEmpty) = true
        · rw [if_pos he] at hpred
          exact absurd hpred (by decide)
        · rw [if_neg he] at hpred
          have := Bool.and_eq_true _ _ |>.mp hpred
          exact ⟨Bool.not_eq_true' .. |>.mp this.1, Bool.not_eq_true' .. |>.mp this.2⟩
  · intro i hmem
    obtain ⟨e, hmem2, hid⟩ := List.mem_map.mp hmem
    exact ⟨e, (List.mem_filter.mp hmem2).1, hid⟩

/-- An Outlook mirror event tagged `CAL1/abc1`. -/
def sampleCal1Orphan : GraphEventResponse :=
  ⟨"oid1", "Dentist", some "abc1", some "busy", false, 0, 3600000,
    some (encodeSyncMeta "d" "CAL1" "abc1")⟩

theorem orphan_sweep_cal1_safety_witness :
    sampleCal1Orphan ∉ orphanedEvents [] [] [] [] [] [sampleCal1Orphan] :=
  (orphan_sweep_cal1_safety (fun _ => true) [] [] [] [] [] [sampleCal1Orphan]).1 rfl rfl
    sampleCal1Orphan (List.mem_singleton.mpr rfl) (by decide)

/-! ## Write-back deletion decision (`src/unnamed/part_000` 405-441) -/

/-- Uid prefix of the derived busy blocks (`ALTVINA_BLOCK_UID_PREFIX` in
src/unnamed/part_000 50; renamed here). -/
def ALTVINA_BLOCK_UID_MARKER : String := "altvina-"

/-- Key `tag NUL uid` of the Outlook reference set
(src/unnamed/part_000 411, 425). -/
def calKey (tag uidv : String) : String := tag ++ "\x00" ++ uidv

/-- Reference set (a) of src/unnamed/part_000 407-415: the decoded
`(SyncSource, uid)` keys of the fetched Outlook events. -/
def outlookKeys (evs : List GraphEventResponse) : List String :=
  evs.filterMap (fun e =>
    match (parseSyncMeta e.body).syncSource, (parseSyncMeta e.body).uid with
    | some s, some uidv => if s ≠ "" ∧ uidv ≠ "" then some (calKey s uidv) else none
    | _, _ => none)

/-- Reference set (b) of src/unnamed/part_000 416-418: the `iCalUId` values of
the fetched Outlook events (the fallback identity set). -/
def outlookUidsFromICal (evs : List GraphEventResponse) : List String :=
  evs.filterMap (fun e =>
    match e.iCalUId with
    | some uidv => if uidv ≠ "" then some uidv else none
    | none => none)

/-- Tag of an iCloud event by its calendar name (src/unnamed/part_000 424). -/
def syncTagOf (icloudCal1 : String) (ev : NormalizedEvent) : String :=
  if ev.calendarName = icloudCal1 then "CAL1" else "CAL2"

/-- Deletion decision of the write-back flow (src/unnamed/part_000 419-427):
delete an iCloud event only when it belongs to CAL1/CAL2, has an event URL, is
not an altvina block, and neither Outlook reference set mentions it. -/
def shouldDeleteFromIcloud (icloudCal1 icloudCal2 : String) (keys uids : List String)
    (ev : NormalizedEvent) : Bool :=
  if ev.calendarName ≠ icloudCal1 ∧ ev.calendarName ≠ icloudCal2 then false
  else if !optTruthy ev.eventUrl then false
  else if ev.uid.startsWith ALTVINA_BLOCK_UID_MARKER then false
  else !(keys.contains (calKey (syncTagOf icloudCal1 ev) ev.uid) || uids.contains ev.uid)

/-- Deletion targets of the write-back flow: the iCloud events the delete loop
(src/unnamed/part_000 419-441) issues a DELETE for. -/
def icloudDeleteTargets (icloudCal1 icloudCal2 : String)
    (outlookEvs : List GraphEventResponse) (iCloudEvents : List NormalizedEvent) :
    List NormalizedEvent :=
  iCloudEvents.filter (shouldDeleteFromIcloud icloudCal1 icloudCal2
    (outlookKeys outlookEvs) (outlookUidsFromICal outlookEvs))

/-- C4: a source iCloud event is a write-back deletion target only if neither
the decoded Outlook `(tag, uid)` key set nor the Outlook `iCalUId` fallback
set references it; when either set references the event it is never
deleted. -/
theorem icloud_delete_double_check (icloudCal1 icloudCal2 : String)
    (outlookEvs : List GraphEventResponse) (iCloudEvents : List NormalizedEvent)
    (ev : NormalizedEvent) :
    (ev ∈ icloudDeleteTargets icloudCal1 icloudCal2 outlookEvs iCloudEvents →
      (outlookKeys outlookEvs).contains (calKey (syncTagOf icloudCal1 ev) ev.uid) = false ∧
      (outlookUidsFromICal outlookEvs).contains ev.uid = false) ∧
    ((outlookKeys outlookEvs).contains (calKey (syncTagOf icloudCal1 ev) ev.uid) = true ∨
        (outlookUidsFromICal outlookEvs).contains ev.uid = true →
      ev ∉ icloudDeleteTargets icloudCal1 icloudCal2 outlookEvs iCloudEvents) := by
  have hcore : ev ∈ icloudDeleteTargets icloudCal1 icloudCal2 outlookEvs iCloudEvents →
      (outlookKeys outlookEvs).contains (calKey (syncTagOf icloudCal1 ev) ev.uid) = false ∧
      (outlookUidsFromICal outlookEvs).contains ev.uid = false := by
    intro hmem
    have hpred := (List.mem_filter.mp hmem).2
    unfold shouldDeleteFromIcloud at hpred
    by_cases h1 : ev.calendarName ≠ icloudCal1 ∧ ev.calendarName ≠ icloudCal2
    · rw [if_pos h1] at hpred
      exact absurd hpred (by decide)
    · rw [if_neg h1] at hpred
      by_cases h2 : (!optTruthy ev.eventUrl) = true
      · rw [if_pos h2] at hpred
        exact absurd hpred (by decide)
      · rw [if_neg h2] at hpred
        by_cases h3 : ev.uid.startsWith ALTVINA_BLOCK_UID_MARKER = true
        · rw [if_pos h3] at hpred
          exact absurd hpred (by decide)
        · rw [if_neg h3] at hpred
          have hor := Bool.not_eq_true' .. |>.mp hpred
          exact ⟨(Bool.or_eq_false_iff.mp hor).1, (Bool.or_eq_false_iff.mp hor).2⟩
  refine ⟨hcore, fun h hmem => ?_⟩
  obtain ⟨ha, hb⟩ := hcore hmem
  rcases h with h | h
  · rw [ha] at h
    exact absurd h (by decide)
  · rw [hb] at h
    exact absurd h (by decide)

/-- An iCloud event on CAL1 still referenced by the Outlook mirror. -/
def sampleTrackedIcloudEvent : NormalizedEvent :=
  ⟨"abc1", "Dentist", "d", 0, 3600000, none, "Shared Calendar", false, some "https://caldav/e1.ics"⟩

theorem icloud_delete_double_check_witness :
    sampleTrackedIcloudEvent ∉ icloudDeleteTargets "Shared Calendar" "Jay - Personal"
      [sampleCal1Orphan] [sampleTrackedIcloudEvent] :=
  (icloud_delete_double_check "Shared Calendar" "Jay - Personal" [sampleCal1Orphan]
    [sampleTrackedIcloudEvent] sampleTrackedIcloudEvent).2 (Or.inl (by decide))

/-! ## Derived busy-block sync (`src/unnamed/part_000` 443-507) -/

/-- JavaScript whitespace as `String.prototype.trim` sees it (the common
cases). -/
def isJsWhitespace (c : Char) : Bool := c = ' ' || c = '\t' || c = '\n' || c = '\r'

/-- `String.prototype.trim` modelled on the character list. -/
def trimChars (cs : List Char) : List Char :=
  ((cs.dropWhile isJsWhitespace).reverse.dropWhile isJsWhitespace).reverse

/-- `String.prototype.toLowerCase` on one ASCII character. -/
def lowerChar (c : Char) : Char :=
  if 'A' ≤ c ∧ c ≤ 'Z' then Char.ofNat (c.toNat + 32) else c

/-- Calendar-name normalisation of src/unnamed/part_000 251-252: trim, then
straighten curly apostrophes (U+2019, U+2018) into the plain one (U+0027). -/
def normalizeCalName (s : String) : String :=
  String.mk ((trimChars s.data).map (fun c =>
    if c = Char.ofNat 0x2019 || c = Char.ofNat 0x2018 then Char.ofNat 39 else c))

/-- Map insertion with JS `Map.set` semantics: replace the binding in place
when the key exists, append otherwise. -/
def mapSet {A : Type} (k : String) (v : A) : List (String × A) → List (String × A)
  | [] => [(k, v)]
  | (k2, v2) :: rest => if k2 = k then (k, v) :: rest else (k2, v2) :: mapSet k v rest

/-- Map lookup (`Map.get`). -/
def mapGet {A : Type} (m : List (String × A)) (k : String) : Option A :=
  (m.find? (fun p => p.1 == k)).map (fun p => p.2)

/-- Filter of src/unnamed/part_000 461: keep the Exchange source events whose
`showAs` is set and not `free`. -/
def showAsBusyFilter (e : GraphEventResponse) : Bool :=
  match e.showAs with
  | some s => s != "" && s != "free"
  | none => false

/-- `busyEvents` (src/unnamed/part_000 461). -/
def busyEvents (sourceEvents : List GraphEventResponse) : List GraphEventResponse :=
  sourceEvents.filter showAsBusyFilter

/-- `busyIds` (src/unnamed/part_000 462). -/
def busyIds (sourceEvents : List GraphEventResponse) : List String :=
  (busyEvents sourceEvents).map (fun e => e.id)

/-- Condition of src/unnamed/part_000 465: an iCloud event is a managed
altvina block when its uid has the block prefix, it lives on CAL2 and it has
an event URL. -/
def isAltvinaCal2Block (icloudCal2 : String) (ev : NormalizedEvent) : Bool :=
  ev.uid.startsWith ALTVINA_BLOCK_UID_MARKER &&
    (normalizeCalName ev.calendarName == normalizeCalName icloudCal2) &&
    optTruthy ev.eventUrl

/-- `altvinaUidToEvent` (src/unnamed/part_000 463-468). -/
def altvinaUidToEvent (icloudCal2 : String) (iCloudEvents : List NormalizedEvent) :
    List (String × NormalizedEvent) :=
  iCloudEvents.foldl
    (fun m ev => if isAltvinaCal2Block icloudCal2 ev then mapSet ev.uid ev m else m) []

/-- `uid.slice(ALTVINA_BLOCK_UID_MARKER.length)` (src/unnamed/part_000 495). -/
def exchangeIdOf (uidv : String) : String :=
  String.mk (uidv.data.drop ALTVINA_BLOCK_UID_MARKER.length)

/-- Outcome of the derived busy-block sync. -/
structure Step5bResult where
  created : Nat
  updated : Nat
  deleted : Nat
  createdUids : List String
  deletedUids : List String
  finalBlockUids : List String
deriving DecidableEq

/-- Step 5b of the handler (src/unnamed/part_000 447-500), Exchange to iCloud:
keep the non-free source events, create a block `prefix + id` for each kept
event without one, update a block whose time range changed, and delete every
discovered block whose underlying Exchange event id is no longer kept.
`finalBlockUids` lists the managed blocks present after a completed run: the
discovered blocks whose underlying event is still busy plus the created
ones. -/
def step5b (icloudCal2 : String) (sourceEvents : List GraphEventResponse)
    (iCloudEvents : List NormalizedEvent) : Step5bResult :=
  let bIds := busyIds sourceEvents
  let m := altvinaUidToEvent icloudCal2 iCloudEvents
  let createdUids := (busyEvents sourceEvents).filterMap (fun e =>
    match mapGet m (ALTVINA_BLOCK_UID_MARKER ++ e.id) with
    | some _ => none
    | none => some (ALTVINA_BLOCK_UID_MARKER ++ e.id))
  let updatedCount := ((busyEvents sourceEvents).filter (fun e =>
    match mapGet m (ALTVINA_BLOCK_UID_MARKER ++ e.id) with
    | some existing => !(existing.start == e.start && existing.stop == e.stop)
    | none => false)).length
  let deletedUids := m.filterMap (fun p =>
    if bIds.contains (exchangeIdOf p.1) then none else some p.1)
  { created := createdUids.length
    updated := updatedCount
    deleted := deletedUids.length
    createdUids := createdUids
    deletedUids := deletedUids
    finalBlockUids :=
      (m.filter (fun p => bIds.contains (exchangeIdOf p.1))).map (fun p => p.1) ++
        createdUids }

theorem exchangeIdOf_prefix_append (s : String) :
    exchangeIdOf (ALTVINA_BLOCK_UID_MARKER ++ s) = s := by
  unfold exchangeIdOf
  have h1 : (ALTVINA_BLOCK_UID_MARKER ++ s).data =
      ALTVINA_BLOCK_UID_MARKER.data ++ s.data := rfl
  have h2 : ALTVINA_BLOCK_UID_MARKER.length = ALTVINA_BLOCK_UID_MARKER.data.length := rfl
  rw [h1, h2, List.drop_left]

theorem contains_eq_true_iff_mem (l : List String) (a : String) :
    l.contains a = true ↔ a ∈ l := by
  induction l with
  | nil => simp
  | cons b bs ih =>
    rw [List.contains_cons]
    constructor
    · intro h
      rcases Bool.or_eq_true _ _ |>.mp h with h | h
      · exact List.mem_cons.mpr (Or.inl (beq_iff_eq .. |>.mp h))
      · exact List.mem_cons.mpr (Or.inr (ih.mp h))
    · intro h
      rcases List.mem_cons.mp h with h | h
      · subst h
        simp
      · rw [ih.mpr h, Bool.or_true]

/-- C5: after a completed derived-busy-block run, a secondary-source event
with availability `free` has no corresponding block: free events are excluded
from the kept set, so their uid is never created and any discovered block of
theirs is deleted; moreover every discovered block whose underlying event id
is not kept is in the deleted set. -/
theorem free_event_has_no_block (icloudCal2 : String)
    (sourceEvents : List GraphEventResponse) (iCloudEvents : List NormalizedEvent)
    (e : GraphEventResponse) (hml : e ∈ sourceEvents) (hfree : e.showAs = some "free")
    (hnodup : (sourceEvents.map (fun x => x.id)).Nodup) :
    (ALTVINA_BLOCK_UID_MARKER ++ e.id) ∉
        (step5b icloudCal2 sourceEvents iCloudEvents).finalBlockUids ∧
      ∀ p ∈ altvinaUidToEvent icloudCal2 iCloudEvents,
        (busyIds sourceEvents).contains (exchangeIdOf p.1) = false →
          p.1 ∈ (step5b icloudCal2 sourceEvents iCloudEvents).deletedUids := by
  have hefilter : showAsBusyFilter e = false := by
    unfold showAsBusyFilter
    rw [hfree]
    decide
  have hbusy_id : ∀ b ∈ busyEvents sourceEvents, b.id ≠ e.id := by
    intro b hb hid
    have hbsrc : b ∈ sourceEvents := (List.mem_filter.mp hb).1
    have hbfil : showAsBusyFilter b = true := (List.mem_filter.mp hb).2
    have : b = e := List.inj_on_of_nodup_map hnodup hbsrc hml hid
    rw [this, hefilter] at hbfil
    exact absurd hbfil (by decide)
  constructor
  · intro hmem
    rcases List.mem_append.mp hmem with hmem | hmem
    · obtain ⟨p, hp, hpeq⟩ := List.mem_map.mp hmem
      have hkeep := (List.mem_filter.mp hp).2
      rw [hpeq, exchangeIdOf_prefix_append] at hkeep
      obtain ⟨b, hb, hbid⟩ := List.mem_map.mp (contains_eq_true_iff_mem .. |>.mp hkeep)
      exact hbusy_id b hb hbid
    · obtain ⟨b, hb, hbeq⟩ := List.mem_filterMap.mp hmem
      have hbid : b.id = e.id := by
        cases hg : mapGet (altvinaUidToEvent icloudCal2 iCloudEvents)
            (ALTVINA_BLOCK_UID_MARKER ++ b.id) with
        | some _ =>
          rw [hg] at hbeq
          exact absurd hbeq (by simp)
        | none =>
          rw [hg] at hbeq
          have := Option.some.inj hbeq
          have h2 := congrArg exchangeIdOf this
          rwa [exchangeIdOf_prefix_append, exchangeIdOf_prefix_append] at h2
      exact hbusy_id b hb hbid
  · intro p hp hcond
    exact List.mem_filterMap.mpr ⟨p, hp, by rw [hcond]; rfl⟩

/-- A free secondary-source Exchange event. -/
def sampleFreeExchangeEvent : GraphEventResponse :=
  ⟨"77", "Focus time", none, some "free", false, 0, 3600000, none⟩

/-- The derived block left over for event 77 from an earlier run. -/
def sampleAltvinaBlock : NormalizedEvent :=
  ⟨"altvina-77", "Altvina Engagement", "", 0, 3600000, none, "Jay - Personal", false,
    some "https://caldav/altvina-77.ics"⟩

theorem free_event_has_no_block_witness :
    ("altvina-" ++ "77") ∉
      (step5b "Jay - Personal" [sampleFreeExchangeEvent] [sampleAltvinaBlock]).finalBlockUids :=
  (free_event_has_no_block "Jay - Personal" [sampleFreeExchangeEvent] [sampleAltvinaBlock]
    sampleFreeExchangeEvent (List.mem_singleton.mpr rfl) rfl (by decide)).1

/-! ## Forward sync as specified (spec section 4.2)

The handler (src/unnamed/part_000 516-524) calls a seven-argument
`syncEvents` whose result carries `createdEventIds`; that revision of
`lib/graph.ts` is not among the source files (the one under `src/lib` is an
older six-argument variant that always updates a match).  The
skip-when-unchanged loop is therefore modelled from the spec. -/

/-- A mirror event as the spec-level forward sync sees it: the decoded
`(sourceTag, uid)` identity, the compared fields, and the availability. -/
structure MirrorEvent where
  tag : String
  uid : String
  title : String
  start : Int
  stop : Int
  showAs : String
deriving DecidableEq

/-- Result of the spec-level forward sync. -/
structure SpecSyncResult where
  created : Nat
  updated : Nat
  skipped : Nat
  mirror : List MirrorEvent
deriving DecidableEq

/-- Whether a mirror event carries the given `(tag, uid)` identity. -/
def matchesKey (tag uidv : String) (m : MirrorEvent) : Bool :=
  m.tag == tag && m.uid == uidv

/-- Modelled from the spec (section 4.2): the forward-sync loop of the
current `syncEvents` — reject a duplicate `(tag, uid)` with a skip; create a
missing mirror event with availability `busy`; update a matched one only when
title/start/end differ, preserving availability `free` and forcing `busy`
otherwise; skip when nothing differs. -/
def syncEventsSpecGo :
    List (String × NormalizedEvent) → List MirrorEvent → List String → SpecSyncResult
  | [], mirror, _ => ⟨0, 0, 0, mirror⟩
  | (tag, ev) :: rest, mirror, processed =>
    if processed.contains (calKey tag ev.uid) then
      let r := syncEventsSpecGo rest mirror processed
      { r with skipped := r.skipped + 1 }
    else
      match mirror.find? (matchesKey tag ev.uid) with
      | none =>
        let r := syncEventsSpecGo rest
          (mirror ++ [⟨tag, ev.uid, ev.title, ev.start, ev.stop, "busy"⟩])
          (calKey tag ev.uid :: processed)
        { r with created := r.created + 1 }
      | some m =>
        if m.title == ev.title && m.start == ev.start && m.stop == ev.stop then
          let r := syncEventsSpecGo rest mirror (calKey tag ev.uid :: processed)
          { r with skipped := r.skipped + 1 }
        else
          let r := syncEventsSpecGo rest
            (mirror.map (fun mm =>
              if matchesKey tag ev.uid mm then
                { mm with
                    title := ev.title
                    start := ev.start
                    stop := ev.stop
                    showAs := if mm.showAs == "free" then "free" else "busy" }
              else mm))
            (calKey tag ev.uid :: processed)
          { r with updated := r.updated + 1 }

/-- Modelled from the spec (section 4.2): one forward-sync run over tagged
source events and the current mirror state. -/
def syncEventsSpec (events : List (String × NormalizedEvent)) (mirror : List MirrorEvent) :
    SpecSyncResult :=
  syncEventsSpecGo events mirror []

/-- First occurrences of `(tag, uid)` keys in a batch, given already-seen
keys: the events the loop actually processes. -/
def firstOccs : List (String × NormalizedEvent) → List String →
    List (String × NormalizedEvent)
  | [], _ => []
  | (tag, ev) :: rest, seen =>
    if seen.contains (calKey tag ev.uid) then firstOccs rest seen
    else (tag, ev) :: firstOccs rest (calKey tag ev.uid :: seen)

/-- The first mirror match of `(tag, ev.uid)` exists and already carries the
compared fields of `ev`. -/
def goodFor (mirror : List MirrorEvent) (tag : String) (ev : NormalizedEvent) : Prop :=
  ∃ m, mirror.find? (matchesKey tag ev.uid) = some m ∧
    m.title = ev.title ∧ m.start = ev.start ∧ m.stop = ev.stop

theorem find?_eq_head_filter {A : Type} (p : A → Bool) :
    ∀ l : List A, l.find? p = (l.filter p).head?
  | [] => rfl
  | a :: l => by
    by_cases h : p a = true
    · rw [List.find?_cons_of_pos _ h, List.filter_cons_of_pos h]
      rfl
    · rw [List.find?_cons_of_neg _ (by simpa using h), List.filter_cons_of_neg (by simpa using h)]
      exact find?_eq_head_filter p l

theorem filter_map_invariant {A : Type} (p : A → Bool) (f : A → A)
    (hp : ∀ a, p (f a) = p a) (hfix : ∀ a, p a = true → f a = a) :
    ∀ l : List A, (l.map f).filter p = l.filter p
  | [] => rfl
  | a :: l => by
    rw [List.map_cons, List.filter_cons, List.filter_cons, hp a]
    by_cases h : p a = true
    · rw [if_pos h, if_pos h, hfix a h, filter_map_invariant p f hp hfix l]
    · rw [if_neg h, if_neg h, filter_map_invariant p f hp hfix l]

theorem find?_map_invariant {A : Type} (p : A → Bool) (f : A → A)
    (hp : ∀ a, p (f a) = p a) :
    ∀ l : List A, (l.map f).find? p = (l.find? p).map f
  | [] => rfl
  | a :: l => by
    rw [List.map_cons]
    by_cases h : p a = true
    · rw [List.find?_cons_of_pos _ (by rw [hp a]; exact h), List.find?_cons_of_pos _ h]
      rfl
    · rw [List.find?_cons_of_neg _ (by rw [hp a]; simpa using h),
        List.find?_cons_of_neg _ (by simpa using h), find?_map_invariant p f hp l]

theorem goodFor_of_filter_eq (m1 m2 : List MirrorEvent) (tag : String)
    (ev : NormalizedEvent)
    (h : m1.filter (matchesKey tag ev.uid) = m2.filter (matchesKey tag ev.uid))
    (hg : goodFor m2 tag ev) : goodFor m1 tag ev := by
  obtain ⟨m, hfind, hf⟩ := hg
  refine ⟨m, ?_, hf⟩
  rw [find?_eq_head_filter, h, ← find?_eq_head_filter]
  exact hfind

/-- The matcher only reads the identity fields, which the spec update
preserves. -/
def specUpdater (tag : String) (ev : NormalizedEvent) (mm : MirrorEvent) : MirrorEvent :=
  if matchesKey tag ev.uid mm then
    { mm with
        title := ev.title
        start := ev.start
        stop := ev.stop
        showAs := if mm.showAs == "free" then "free" else "busy" }
  else mm

theorem specUpdater_matches (tag : String) (ev : NormalizedEvent) (tag2 uid2 : String) :
    ∀ mm, matchesKey tag2 uid2 (specUpdater tag ev mm) = matchesKey tag2 uid2 mm := by
  intro mm
  unfold specUpdater
  by_cases h : matchesKey tag ev.uid mm = true
  · rw [if_pos h]
    rfl
  · rw [if_neg h]

theorem matchesKey_eq (tag uidv : String) (mm : MirrorEvent)
    (h : matchesKey tag uidv mm = true) : mm.tag = tag ∧ mm.uid = uidv := by
  unfold matchesKey at h
  have h2 := Bool.and_eq_true .. |>.mp h
  exact ⟨beq_iff_eq .. |>.mp h2.1, beq_iff_eq .. |>.mp h2.2⟩

theorem specUpdater_fixes (tag : String) (ev : NormalizedEvent) (tag2 uid2 : String)
    (hne : calKey tag ev.uid ≠ calKey tag2 uid2) :
    ∀ mm, matchesKey tag2 uid2 mm = true → specUpdater tag ev mm = mm := by
  intro mm h2
  unfold specUpdater
  by_cases h1 : matchesKey tag ev.uid mm = true
  · obtain ⟨ha1, ha2⟩ := matchesKey_eq _ _ _ h1
    obtain ⟨hb1, hb2⟩ := matchesKey_eq _ _ _ h2
    exact absurd (by rw [← ha1, ← ha2, hb1, hb2]) hne
  · rw [if_neg h1]

theorem specGo_filter_frozen :
    ∀ (evs : List (String × NormalizedEvent)) (mirror : List MirrorEvent)
      (processed : List String) (tag2 uid2 : String),
      processed.contains (calKey tag2 uid2) = true →
      (syncEventsSpecGo evs mirror processed).mirror.filter (matchesKey tag2 uid2) =
        mirror.filter (matchesKey tag2 uid2)
  | [], mirror, processed, tag2, uid2, hp => rfl
  | (tag, ev) :: rest, mirror, processed, tag2, uid2, hp => by
    simp only [syncEventsSpecGo]
    by_cases hdup : processed.contains (calKey tag ev.uid) = true
    · rw [if_pos hdup]
      exact specGo_filter_frozen rest mirror processed tag2 uid2 hp
    · rw [if_neg hdup]
      have hne : calKey tag ev.uid ≠ calKey tag2 uid2 := by
        intro h
        rw [h, hp] at hdup
        exact hdup rfl
      have hp2 : (calKey tag ev.uid :: processed).contains (calKey tag2 uid2) = true := by
        rw [List.contains_cons, hp, Bool.or_true]
      split
      · rename_i hfind
        have hnew : matchesKey tag2 uid2
            (⟨tag, ev.uid, ev.title, ev.start, ev.stop, "busy"⟩ : MirrorEvent) = false := by
          by_cases h : matchesKey tag2 uid2
              (⟨tag, ev.uid, ev.title, ev.start, ev.stop, "busy"⟩ : MirrorEvent) = true
          · obtain ⟨h1, h2⟩ := matchesKey_eq _ _ _ h
            exact absurd (by rw [← h1, ← h2]) hne
          · simpa using h
        rw [specGo_filter_frozen rest _ _ tag2 uid2 hp2, List.filter_append]
        rw [List.filter_cons_of_neg (by simpa using hnew)]
        simp
      · rename_i m hfind
        by_cases hsame : (m.title == ev.title && m.start == ev.start &&
            m.stop == ev.stop) = true
        · rw [if_pos hsame]
          exact specGo_filter_frozen rest mirror _ tag2 uid2 hp2
        · rw [if_neg hsame]
          rw [specGo_filter_frozen rest _ _ tag2 uid2 hp2]
          exact filter_map_invariant (matchesKey tag2 uid2) (specUpdater tag ev)
            (specUpdater_matches tag ev tag2 uid2) (specUpdater_fixes tag ev tag2 uid2 hne)
            mirror

theorem specGo_establishes_good :
    ∀ (evs : List (String × NormalizedEvent)) (mirror : List MirrorEvent)
      (processed : List String),
      ∀ p ∈ firstOccs evs processed,
        goodFor (syncEventsSpecGo evs mirror processed).mirror p.1 p.2
  | [], mirror, processed => by
    intro p hp
    simp [firstOccs] at hp
  | (tag, ev) :: rest, mirror, processed => by
    intro p hp
    simp only [syncEventsSpecGo]
    by_cases hdup : processed.contains (calKey tag ev.uid) = true
    · rw [if_pos hdup]
      simp only [firstOccs, hdup, if_true] at hp
      exact specGo_establishes_good rest mirror processed p hp
    · rw [if_neg hdup]
      simp only [firstOccs, hdup, if_false] at hp
      have hpcontains : (calKey tag ev.uid :: processed).contains (calKey tag ev.uid) = true := by
        rw [List.contains_cons]
        simp
      rcases List.mem_cons.mp hp with hphead | hptail
      · subst hphead
        split
        · rename_i hfind
          have hfilter0 : mirror.filter (matchesKey tag ev.uid) = [] := by
            have h := find?_eq_head_filter (matchesKey tag ev.uid) mirror
            rw [hfind] at h
            exact List.head?_eq_none_iff.mp h.symm
          have hnewmatch : matchesKey tag ev.uid
              (⟨tag, ev.uid, ev.title, ev.start, ev.stop, "busy"⟩ : MirrorEvent) = true := by
            unfold matchesKey
            simp
          have hgood1 : goodFor
              (mirror ++ [⟨tag, ev.uid, ev.title, ev.start, ev.stop, "busy"⟩]) tag ev := by
            refine ⟨⟨tag, ev.uid, ev.title, ev.start, ev.stop, "busy"⟩, ?_, rfl, rfl, rfl⟩
            rw [find?_eq_head_filter, List.filter_append, hfilter0,
              List.filter_cons_of_pos hnewmatch]
            rfl
          exact goodFor_of_filter_eq _ _ _ _
            (specGo_filter_frozen rest _ _ tag ev.uid hpcontains) hgood1
        · rename_i m hfind
          by_cases hsame : (m.title == ev.title && m.start == ev.start &&
              m.stop == ev.stop) = true
          · rw [if_pos hsame]
            have h1 := Bool.and_eq_true .. |>.mp hsame
            have h2 := Bool.and_eq_true .. |>.mp h1.1
            have hgood1 : goodFor mirror tag ev :=
              ⟨m, hfind, beq_iff_eq .. |>.mp h2.1, beq_iff_eq .. |>.mp h2.2,
                beq_iff_eq .. |>.mp h1.2⟩
            exact goodFor_of_filter_eq _ _ _ _
              (specGo_filter_frozen rest _ _ tag ev.uid hpcontains) hgood1
          · rw [if_neg hsame]
            have hgood1 : goodFor (mirror.map (specUpdater tag ev)) tag ev := by
              refine ⟨specUpdater tag ev m, ?_, ?_, ?_, ?_⟩
              · rw [find?_map_invariant (matchesKey tag ev.uid) (specUpdater tag ev)
                  (specUpdater_matches tag ev tag ev.uid) mirror, hfind]
                rfl
              · unfold specUpdater
                rw [if_pos (List.find?_some hfind)]
              · unfold specUpdater
                rw [if_pos (List.find?_some hfind)]
              · unfold specUpdater
                rw [if_pos (List.find?_some hfind)]
            refine goodFor_of_filter_eq _ _ _ _
              (specGo_filter_frozen rest _ _ tag ev.uid hpcontains) ?_
            exact hgood1
      · split
        · rename_i hfind
          exact specGo_establishes_good rest _ _ p hptail
        · rename_i m hfind
          by_cases hsame : (m.title == ev.title && m.start == ev.start &&
              m.stop == ev.stop) = true
          · rw [if_pos hsame]
            exact specGo_establishes_good rest _ _ p hptail
          · rw [if_neg hsame]
            exact specGo_establishes_good rest _ _ p hptail

theorem specGo_zero_of_good :
    ∀ (evs : List (String × NormalizedEvent)) (mirror : List MirrorEvent)
      (processed : List String),
      (∀ p ∈ firstOccs evs processed, goodFor mirror p.1 p.2) →
      (syncEventsSpecGo evs mirror processed).created = 0 ∧
        (syncEventsSpecGo evs mirror processed).updated = 0 ∧
        (syncEventsSpecGo evs mirror processed).skipped = evs.length ∧
        (syncEventsSpecGo evs mirror processed).mirror = mirror
  | [], mirror, processed, _ => ⟨rfl, rfl, rfl, rfl⟩
  | (tag, ev) :: rest, mirror, processed, h => by
    simp only [syncEventsSpecGo]
    by_cases hdup : processed.contains (calKey tag ev.uid) = true
    · rw [if_pos hdup]
      have hrest : ∀ p ∈ firstOccs rest processed, goodFor mirror p.1 p.2 := by
        intro p hp
        apply h
        simp only [firstOccs, hdup, if_true]
        exact hp
      obtain ⟨h1, h2, h3, h4⟩ := specGo_zero_of_good rest mirror processed hrest
      exact ⟨h1, h2, by simp [h3], h4⟩
    · rw [if_neg hdup]
      have hhead : goodFor mirror tag ev := by
        have := h (tag, ev) (by
          simp only [firstOccs, hdup, if_false]
          exact List.mem_cons_self _ _)
        exact this
      obtain ⟨m, hfind, hf1, hf2, hf3⟩ := hhead
      simp only [hfind]
      have hsame : (m.title == ev.title && m.start == ev.start && m.stop == ev.stop) = true := by
        rw [hf1, hf2, hf3]
        simp
      rw [if_pos hsame]
      have hrest : ∀ p ∈ firstOccs rest (calKey tag ev.uid :: processed),
          goodFor mirror p.1 p.2 := by
        intro p hp
        apply h
        simp only [firstOccs, hdup, if_false]
        exact List.mem_cons_of_mem _ hp
      obtain ⟨h1, h2, h3, h4⟩ := specGo_zero_of_good rest mirror _ hrest
      exact ⟨h1, h2, by simp [h3], h4⟩

/-- C3: per the spec model, Forward Sync is idempotent: a second run over an
unchanged source set creates nothing and updates nothing — every event is
counted as skipped (matched with title/start/end unchanged, or rejected as a
duplicate). -/
theorem forward_sync_idempotent (events : List (String × NormalizedEvent))
    (mirror : List MirrorEvent) :
    (syncEventsSpec events (syncEventsSpec events mirror).mirror).created = 0 ∧
      (syncEventsSpec events (syncEventsSpec events mirror).mirror).updated = 0 ∧
      (syncEventsSpec events (syncEventsSpec events mirror).mirror).skipped =
        events.length := by
  have hgood := specGo_establishes_good events mirror []
  have h := specGo_zero_of_good events ((syncEventsSpecGo events mirror []).mirror) [] hgood
  exact ⟨h.1, h.2.1, h.2.2.1⟩

/-! ## Kill switch and handler pipeline (`src/unnamed/part_000`) -/

/-- `isSyncPaused` (src/unnamed/part_000 128-133): the kill switch is on when
`SYNC_PAUSED` is set to `true`, `1`, `yes` or `on` (trimmed,
case-insensitive). -/
def isSyncPaused (syncPausedVar : Option String) : Bool :=
  match syncPausedVar with
  | none => false
  | some v =>
    if v = "" then false
    else
      let s := String.mk ((trimChars v.data).map lowerChar)
      s == "true" || s == "1" || s == "yes" || s == "on"

/-- A discovered CalDAV calendar (src/lib/types.ts). -/
structure ICloudCalendar where
  name : String
  url : String
deriving DecidableEq

/-- The validated configuration consumed by the handler
(src/unnamed/part_000 52-122), reduced to the fields the claims mention. -/
structure Env where
  syncPaused : Option String
  icloudCal1 : String
  icloudCal2 : String
  icloudCal3 : Option String
  msSourceCalendarName : Option String
  timezone : String

/-- The remote world: the outcome of every remote call the handler can make,
fixed up front as one consistent snapshot. -/
structure World where
  fetchAllEventsResult : Except String (List NormalizedEvent)
  publicFetchResult : Except String (List NormalizedEvent)
  accessTokenResult : Except String String
  targetCalendarResult : Except String String
  listEventsResult : Except String (List GraphEventResponse)
  discoverCalendarsResult : Except String (List ICloudCalendar)
  sourceCalendarResult : Except String String
  sourceListResult : Except String (List GraphEventResponse)
  icloudCreateResult : NormalizedEvent → Except String String
  icloudUpdateFails : String → Bool
  icloudDeleteFails : String → Bool
  graphTagUpdateFails : String → Bool
  syncCreateFails : String → Bool
  syncUpdateFails : String → Bool
  newEventId : String → String
  orphanDeleteOk : String → Bool

/-- Modelled from the spec: `graphEventToNormalizedEvent` lives in the
current `lib/graph.ts`, which is not among the source files; per the adapter
contracts (spec section 2) it converts a mirror event into a
`NormalizedEvent`, with the uid and calendar overrides the handler passes. -/
def graphEventToNormalizedEvent (e : GraphEventResponse) (uidOverride : Option String)
    (calendarName : String) : NormalizedEvent :=
  { uid := uidOverride.getD ""
    title := e.subject
    description := ""
    start := e.start
    stop := e.stop
    location := none
    calendarName := calendarName
    isAllDay := e.isAllDay
    eventUrl := none }

/-- `Set.add` semantics on a list-backed set. -/
def setAdd (s : List String) (x : String) : List String :=
  if s.contains x then s else x :: s

/-- State threaded through the write-back loop (src/unnamed/part_000
292-300), the uid sets it mutates, and the number of remote calls issued. -/
structure WriteBackState where
  created : Nat
  updated : Nat
  deleted : Nat
  skippedNoCal2Url : Nat
  candidates : Nat
  errors : List String
  cal2Uids : List String
  restoredCal1Uids : List String
  calls : Nat
deriving DecidableEq

/-- No-SyncSource branch of the write-back loop (src/unnamed/part_000
306-349): create the Outlook-born event on CAL2, then tag the Outlook event;
a failure of either call is recorded and the loop continues. -/
def writeBackCreateOnCal2 (env : Env) (w : World) (cal2Url : Option String)
    (st0 : WriteBackState) (outlookEvent : GraphEventResponse) : WriteBackState :=
  let st := { st0 with candidates := st0.candidates + 1 }
  if !optTruthy cal2Url then
    { st with skippedNoCal2Url := st.skippedNoCal2Url + 1 }
  else
    let normalized := graphEventToNormalizedEvent outlookEvent (some "") env.icloudCal2
    match w.icloudCreateResult { normalized with uid := "" } with
    | Except.error msg =>
      { st with
          errors := st.errors ++ [outlookEvent.subject ++ ": " ++ msg]
          calls := st.calls + 1 }
    | Except.ok newUid =>
      let st1 := { st with
          cal2Uids := setAdd st.cal2Uids newUid
          calls := st.calls + 2 }
      if w.graphTagUpdateFails outlookEvent.id then
        { st1 with errors := st1.errors ++ [outlookEvent.subject ++ ": tag update failed"] }
      else
        { st1 with created := st1.created + 1 }

/-- Restore branch of the write-back loop (src/unnamed/part_000 380-402):
recreate the event on its source calendar with the original uid and record
the uid as restored for CAL1 (or synced for CAL2). -/
def writeBackRestore (w : World) (syncSource calName : String) (calUrl : Option String)
    (metaUid : String) (outlookEvent : GraphEventResponse) (st : WriteBackState) :
    WriteBackState :=
  if !optTruthy calUrl then st
  else if metaUid.startsWith ALTVINA_BLOCK_UID_MARKER then st
  else
    let outlookNorm := graphEventToNormalizedEvent outlookEvent (some metaUid) calName
    match w.icloudCreateResult { outlookNorm with uid := metaUid } with
    | Except.error msg =>
      { st with
          errors := st.errors ++ ["restore " ++ outlookEvent.subject ++ ": " ++ msg]
          calls := st.calls + 1 }
    | Except.ok _ =>
      let st1 := { st with
          created := st.created + 1
          calls := st.calls + 1 }
      let st2 := if syncSource = "CAL2"
        then { st1 with cal2Uids := setAdd st1.cal2Uids metaUid } else st1
      if syncSource = "CAL1"
        then { st2 with restoredCal1Uids := setAdd st2.restoredCal1Uids metaUid } else st2

/-- One iteration of the Outlook-to-iCloud write-back loop
(src/unnamed/part_000 302-403). -/
def writeBackStep (env : Env) (w : World) (cal1Url cal2Url : Option String)
    (index : List (String × NormalizedEvent)) (st : WriteBackState)
    (outlookEvent : GraphEventResponse) : WriteBackState :=
  let meta := parseSyncMeta outlookEvent.body
  match meta.syncSource with
  | none => writeBackCreateOnCal2 env w cal2Url st outlookEvent
  | some syncSource =>
    if syncSource = "" then writeBackCreateOnCal2 env w cal2Url st outlookEvent
    else
      match meta.uid with
      | none => st
      | some metaUid =>
        if metaUid = "" then st
        else if syncSource = "CAL3" then st
        else
          let calName := if syncSource = "CAL1" then env.icloudCal1 else env.icloudCal2
          let calUrl := if syncSource = "CAL1" then cal1Url else cal2Url
          match mapGet index (calKey (normalizeCalName calName) metaUid) with
          | some iCloudEv =>
            if optTruthy iCloudEv.eventUrl then
              let outlookNorm := graphEventToNormalizedEvent outlookEvent none calName
              if outlookNorm.title == iCloudEv.title &&
                  outlookNorm.start == iCloudEv.start &&
                  outlookNorm.stop == iCloudEv.stop then st
              else if w.icloudUpdateFails (iCloudEv.eventUrl.getD "") then
                { st with
                    errors := st.errors ++ ["update " ++ outlookEvent.subject ++ ": failed"]
                    calls := st.calls + 1 }
              else
                { st with
                    updated := st.updated + 1
                    calls := st.calls + 1 }
            else writeBackRestore w syncSource calName calUrl metaUid outlookEvent st
          | none => writeBackRestore w syncSource calName calUrl metaUid outlookEvent st

/-- The write-back delete loop body (src/unnamed/part_000 428-440): one
DELETE per target; a failure is recorded and iteration continues. -/
def runIcloudDeletes (deleteFails : String → Bool) (targets : List NormalizedEvent) :
    Nat × List String :=
  targets.foldl (fun acc ev =>
    if deleteFails (ev.eventUrl.getD "") then
      (acc.1, acc.2 ++ ["delete " ++ ev.title ++ ": failed"])
    else (acc.1 + 1, acc.2)) (0, [])

/-- The JSON response of the handler, reduced to the fields the claims
mention. -/
structure HandlerResponse where
  status : Nat
  success : Bool
  paused : Bool
  error : Option String
  fetched : Nat
  created : Nat
  updated : Nat
  skipped : Nat
  deleted : Nat
deriving DecidableEq

/-- Outcome of one handler invocation: the response plus the number of
remote calendar reads and writes performed. -/
structure HandlerOutcome where
  response : HandlerResponse
  reads : Nat
  writes : Nat
deriving DecidableEq

/-- The paused response (src/unnamed/part_000 148-153). -/
def pausedResponse : HandlerResponse :=
  ⟨200, true, true, none, 0, 0, 0, 0, 0⟩

/-- The failure response of the catch-all (src/unnamed/part_000 629-633). -/
def failureResponse (msg : String) : HandlerResponse :=
  ⟨500, false, false, some msg, 0, 0, 0, 0, 0⟩

/-- Steps 5-7 of the handler body once every fatal lookup succeeded
(src/unnamed/part_000 244-622): write-back, deletion, derived busy blocks,
forward sync, orphan sweep, success response. -/
def handlerSteps (env : Env) (w : World) (iCloudEvents : List NormalizedEvent)
    (existingEventsInWindow : List GraphEventResponse)
    (caldavCalendars : List ICloudCalendar) (readsSoFar : Nat) : HandlerOutcome :=
  let cal1Url := (caldavCalendars.find? (fun c =>
    normalizeCalName c.name == normalizeCalName env.icloudCal1)).map (fun c => c.url)
  let cal2Url := (caldavCalendars.find? (fun c =>
    normalizeCalName c.name == normalizeCalName env.icloudCal2)).map (fun c => c.url)
  let reads1 := if optTruthy cal2Url then readsSoFar else readsSoFar + 1
  let index := iCloudEvents.foldl (fun m ev =>
    let n := normalizeCalName ev.calendarName
    if n = normalizeCalName env.icloudCal1 ∨ n = normalizeCalName env.icloudCal2 then
      mapSet (calKey n ev.uid) ev m
    else m) []
  let cal2Uids0 := (iCloudEvents.filter (fun e =>
    normalizeCalName e.calendarName == normalizeCalName env.icloudCal2 &&
      !e.uid.startsWith ALTVINA_BLOCK_UID_MARKER)).map (fun e => e.uid)
  let wb := existingEventsInWindow.foldl
    (writeBackStep env w cal1Url cal2Url index)
    ⟨0, 0, 0, 0, 0, [], cal2Uids0, [], 0⟩
  let targets := icloudDeleteTargets env.icloudCal1 env.icloudCal2
    existingEventsInWindow iCloudEvents
  let deleteResults := runIcloudDeletes w.icloudDeleteFails targets
  let step5bRes :=
    if optTruthy env.msSourceCalendarName ∧ optTruthy cal2Url then
      match w.sourceCalendarResult with
      | Except.error _ => ((⟨0, 0, 0, [], [], []⟩ : Step5bResult), 1)
      | Except.ok _ =>
        match w.sourceListResult with
        | Except.error _ => ((⟨0, 0, 0, [], [], []⟩ : Step5bResult), 2)
        | Except.ok sourceEvents => (step5b env.icloudCal2 sourceEvents iCloudEvents, 2)
    else ((⟨0, 0, 0, [], [], []⟩ : Step5bResult), 0)
  let iCloudEventsForOutlook := iCloudEvents.filter (fun e =>
    !e.uid.startsWith ALTVINA_BLOCK_UID_MARKER)
  let syncResult := syncEvents w.syncCreateFails w.syncUpdateFails
    iCloudEventsForOutlook existingEventsInWindow
  let createdEventIds := syncResult.ops.filterMap (fun op =>
    match op with
    | SyncOp.create u _ => some (w.newEventId u)
    | SyncOp.update _ _ _ => none)
  let cal1Uids := (iCloudEvents.filter (fun e =>
    normalizeCalName e.calendarName == normalizeCalName env.icloudCal1)).map (fun e => e.uid)
  let cal3Uids := (iCloudEvents.filter (fun e =>
    normalizeCalName e.calendarName != normalizeCalName env.icloudCal1 &&
      normalizeCalName e.calendarName != normalizeCalName env.icloudCal2)).map
    (fun e => e.uid)
  let orphans := orphanedEvents createdEventIds cal1Uids wb.cal2Uids cal3Uids
    wb.restoredCal1Uids existingEventsInWindow
  let deletedCount := (orphans.filter (fun e => w.orphanDeleteOk e.id)).length
  { response :=
      { status := 200
        success := true
        paused := false
        error := none
        fetched := iCloudEvents.length
        created := syncResult.created
        updated := syncResult.updated
        skipped := syncResult.skipped
        deleted := deletedCount }
    reads := reads1 + 1 + step5bRes.2
    writes := wb.calls + deleteResults.1 + deleteResults.2.length +
      step5bRes.1.created + step5bRes.1.updated + step5bRes.1.deleted +
      (syncResult.created + syncResult.updated +
        syncResult.errors.countP SyncItemError.isFailure) + orphans.length }

/-- Fatal steps after the iCloud fetch (src/unnamed/part_000 214-249): the
token, the target calendar, the Outlook window fetch and the CalDAV
discovery; any thrown error lands in the catch. -/
def handlerAfterFetch (env : Env) (w : World) (iCloudEvents : List NormalizedEvent)
    (readsSoFar : Nat) : HandlerOutcome :=
  match w.accessTokenResult with
  | Except.error msg => { response := failureResponse msg, reads := readsSoFar, writes := 0 }
  | Except.ok _ =>
    match w.targetCalendarResult with
    | Except.error msg =>
      { response := failureResponse msg, reads := readsSoFar + 1, writes := 0 }
    | Except.ok _ =>
      match w.listEventsResult with
      | Except.error msg =>
        { response := failureResponse msg, reads := readsSoFar + 2, writes := 0 }
      | Except.ok existingEventsInWindow =>
        match w.discoverCalendarsResult with
        | Except.error msg =>
          { response := failureResponse msg, reads := readsSoFar + 3, writes := 0 }
        | Except.ok caldavCalendars =>
          handlerSteps env w iCloudEvents existingEventsInWindow caldavCalendars
            (readsSoFar + 3)

/-- The handler body inside the try (src/unnamed/part_000 157-622), from the
iCloud fetch and the optional public-calendar merge onwards. -/
def handlerRun (env : Env) (w : World) : HandlerOutcome :=
  match w.fetchAllEventsResult with
  | Except.error msg => { response := failureResponse msg, reads := 1, writes := 0 }
  | Except.ok caldavEvents =>
    match env.icloudCal3 with
    | none => handlerAfterFetch env w caldavEvents 1
    | some _ =>
      match w.publicFetchResult with
      | Except.error msg => { response := failureResponse msg, reads := 2, writes := 0 }
      | Except.ok publicEventsRaw =>
        let caldavUids := caldavEvents.map (fun e => e.uid)
        let newFromPublic := publicEventsRaw.filter (fun e => !caldavUids.contains e.uid)
        let publicAsCal2 := newFromPublic.map (fun e =>
          { e with calendarName := env.icloudCal2 })
        handlerAfterFetch env w (caldavEvents ++ publicAsCal2) 2

/-- The handler (src/unnamed/part_000 138-635): kill-switch check first, then
the pipeline inside the try/catch. -/
def handler (env : Env) (w : World) : HandlerOutcome :=
  if isSyncPaused env.syncPaused then
    { response := pausedResponse, reads := 0, writes := 0 }
  else
    handlerRun env w

/-- C9: when the kill switch is set, a run performs zero calendar reads and
zero writes and immediately returns success with `paused: true`, for every
configuration and every remote state. -/
theorem kill_switch_no_effects (env : Env) (w : World)
    (h : isSyncPaused env.syncPaused = true) :
    (handler env w).reads = 0 ∧ (handler env w).writes = 0 ∧
      (handler env w).response.success = true ∧
      (handler env w).response.paused = true ∧
      (handler env w).response.status = 200 := by
  unfold handler
  rw [if_pos h]
  exact ⟨rfl, rfl, rfl, rfl, rfl⟩

/-- A configuration with the kill switch set. -/
def sampleEnvPaused : Env :=
  ⟨some "true", "Shared Calendar", "Jay - Personal", none, none, "America/Los_Angeles"⟩

/-- A configuration with the kill switch unset. -/
def sampleEnvActive : Env :=
  ⟨none, "Shared Calendar", "Jay - Personal", none, none, "America/Los_Angeles"⟩

/-- A benign remote world. -/
def sampleWorld : World :=
  ⟨Except.ok [], Except.ok [], Except.ok "tok", Except.ok "calid", Except.ok [],
    Except.ok [], Except.ok "srcid", Except.ok [], fun _ => Except.ok "uid",
    fun _ => false, fun _ => false, fun _ => false, fun _ => false, fun _ => false,
    fun u => u, fun _ => true⟩

theorem kill_switch_no_effects_witness :
    (handler sampleEnvPaused sampleWorld).reads = 0 ∧
      (handler sampleEnvPaused sampleWorld).writes = 0 ∧
      (handler sampleEnvPaused sampleWorld).response.success = true ∧
      (handler sampleEnvPaused sampleWorld).response.paused = true ∧
      (handler sampleEnvPaused sampleWorld).response.status = 200 :=
  kill_switch_no_effects sampleEnvPaused sampleWorld (by decide)

theorem runIcloudDeletes_total (deleteFails : String → Bool)
    (targets : List NormalizedEvent) :
    (runIcloudDeletes deleteFails targets).1 +
      (runIcloudDeletes deleteFails targets).2.length = targets.length := by
  have hgen : ∀ (l : List NormalizedEvent) (acc : Nat × List String),
      (l.foldl (fun acc ev =>
        if deleteFails (ev.eventUrl.getD "") then
          (acc.1, acc.2 ++ ["delete " ++ ev.title ++ ": failed"])
        else (acc.1 + 1, acc.2)) acc).1 +
        (l.foldl (fun acc ev =>
          if deleteFails (ev.eventUrl.getD "") then
            (acc.1, acc.2 ++ ["delete " ++ ev.title ++ ": failed"])
          else (acc.1 + 1, acc.2)) acc).2.length = acc.1 + acc.2.length + l.length := by
    intro l
    induction l with
    | nil => intro acc; simp
    | cons ev rest ih =>
      intro acc
      simp only [List.foldl_cons]
      by_cases h : deleteFails (ev.eventUrl.getD "") = true
      · rw [if_pos h, ih]
        simp only [List.length_append, List.length_cons, List.length_nil]
        omega
      · rw [if_neg h, ih]
        simp only [List.length_cons]
        omega
  have h := hgen targets (0, [])
  simpa [runIcloudDeletes] using h

/-- C7: per-item fault isolation and run-level fatality.  Every event of a
Forward Sync batch is accounted for exactly once (created, updated, skipped,
or recorded as a caught failure) whatever the per-item failure pattern, and
the write-back delete loop likewise processes every target; an
authentication failure or a failed target-calendar lookup aborts the run
with `{success: false, status: 500, error}`; a run whose fatal steps all
succeed returns success regardless of the per-item oracles. -/
theorem fault_isolation (env : Env) (w : World) :
    (∀ (failCreate failUpdate : String → Bool) (events : List NormalizedEvent)
        (existing : List GraphEventResponse),
      (syncEvents failCreate failUpdate events existing).created +
        (syncEvents failCreate failUpdate events existing).updated +
        (syncEvents failCreate failUpdate events existing).skipped +
        (syncEvents failCreate failUpdate events existing).errors.countP
          SyncItemError.isFailure = events.length) ∧
    (∀ (deleteFails : String → Bool) (targets : List NormalizedEvent),
      (runIcloudDeletes deleteFails targets).1 +
        (runIcloudDeletes deleteFails targets).2.length = targets.length) ∧
    (∀ (msg : String) (evs : List NormalizedEvent),
      isSyncPaused env.syncPaused = false → env.icloudCal3 = none →
      w.fetchAllEventsResult = Except.ok evs →
      w.accessTokenResult = Except.error msg →
      (handler env w).response.success = false ∧
        (handler env w).response.status = 500 ∧
        (handler env w).response.error = some msg) ∧
    (∀ (msg tok : String) (evs : List NormalizedEvent),
      isSyncPaused env.syncPaused = false → env.icloudCal3 = none →
      w.fetchAllEventsResult = Except.ok evs →
      w.accessTokenResult = Except.ok tok →
      w.targetCalendarResult = Except.error msg →
      (handler env w).response.success = false ∧
        (handler env w).response.status = 500 ∧
        (handler env w).response.error = some msg) ∧
    (∀ (tok calid : String) (evs : List NormalizedEvent)
        (outlookEvs : List GraphEventResponse) (cals : List ICloudCalendar),
      isSyncPaused env.syncPaused = false → env.icloudCal3 = none →
      w.fetchAllEventsResult = Except.ok evs →
      w.accessTokenResult = Except.ok tok →
      w.targetCalendarResult = Except.ok calid →
      w.listEventsResult = Except.ok outlookEvs →
      w.discoverCalendarsResult = Except.ok cals →
      (handler env w).response.success = true) := by
  refine ⟨?_, ?_, ?_, ?_, ?_⟩
  · intro failCreate failUpdate events existing
    exact syncEventsGo_budget failCreate failUpdate existing events []
  · intro deleteFails targets
    exact runIcloudDeletes_total deleteFails targets
  · intro msg evs hp hcal3 hfetch hauth
    unfold handler handlerRun handlerAfterFetch
    rw [if_neg (by rw [hp]; exact fun h => absurd h (by decide))]
    rw [hfetch, hcal3, hauth]
    exact ⟨rfl, rfl, rfl⟩
  · intro msg tok evs hp hcal3 hfetch hauth hcal
    unfold handler handlerRun handlerAfterFetch
    rw [if_neg (by rw [hp]; exact fun h => absurd h (by decide))]
    rw [hfetch, hcal3, hauth, hcal]
    exact ⟨rfl, rfl, rfl⟩
  · intro tok calid evs outlookEvs cals hp hcal3 hfetch hauth hcal hlist hdisc
    unfold handler handlerRun handlerAfterFetch handlerSteps
    rw [if_neg (by rw [hp]; exact fun h => absurd h (by decide))]
    rw [hfetch, hcal3, hauth, hcal, hlist, hdisc]

/-- A world whose Graph authentication fails. -/
def sampleWorldAuthFail : World :=
  { sampleWorld with accessTokenResult := Except.error "auth failed" }

theorem fault_isolation_witness :
    (handler sampleEnvActive sampleWorldAuthFail).response.success = false ∧
      (handler sampleEnvActive sampleWorldAuthFail).response.status = 500 ∧
      (handler sampleEnvActive sampleWorldAuthFail).response.error = some "auth failed" :=
  (fault_isolation sampleEnvActive sampleWorldAuthFail).2.2.1 "auth failed" [] rfl rfl
    rfl rfl

end BusySync
